import Mathlib

/-!
Verification development for the YOLO dataset-preparation tools
(`tools/xmlTools.py`, `tools/check_format.py`, `tools/split_dataset.py`,
`tools/yolo_labels_distribution.py`).

The Python code is shallowly embedded: Python `float` arithmetic is modelled
by exact rationals (`ℚ`), Python `int` by `ℤ`/`ℕ`, Python exceptions by
`Except`/`Option`, and the filesystem side of corpus-wide loops by explicit
lists of already-read file contents.
-/

namespace YoloTools

/-- Python `int(x)` on a float: truncation toward zero. -/
def ratTrunc (q : ℚ) : ℤ := if 0 ≤ q then ⌊q⌋ else ⌈q⌉

/-- Exceptions that can escape the conversion code paths of `xmlTools.py`. -/
inductive ConvError where
  /-- Models `xml.etree.ElementTree.ParseError` from `ET.parse` on a malformed file. -/
  | parseError
  /-- Models `AttributeError` from `.find(...)` returning `None` (e.g. missing `size`). -/
  | attributeError
  /-- Models `ValueError` from `list.index` on a value absent from the list. -/
  | valueError
  /-- Models `NameError` from using `obj_id` when no branch ever assigned it. -/
  | nameError
  /-- Models `ZeroDivisionError` from `1. / width` or `1. / height`. -/
  | zeroDivisionError
  deriving DecidableEq, Repr

/-- The function `XMLtoTXTConverter._convert_coordinate` (xmlTools.py lines 198-212).

The source computes `dw = 1. / width`, `dh = 1. / height` and then
`x = ((xmin + xmax) / 2) * dw`, `y = ((ymin + ymax) / 2) * dh`,
`w = (xmax - xmin) * dw`, `h = (ymax - ymin) * dh`.
`bbox` is ordered `(xmin, xmax, ymin, ymax)` exactly as at the call site
(line 186).  Python raises `ZeroDivisionError` when `width` or `height`
is `0`; there is no other validation of the image shape. -/
def convert_coordinate (imgshape : ℤ × ℤ) (bbox : ℚ × ℚ × ℚ × ℚ) :
    Except ConvError (ℚ × ℚ × ℚ × ℚ) :=
  let (xmin, xmax, ymin, ymax) := bbox
  let width := imgshape.1
  let height := imgshape.2
  if width = 0 ∨ height = 0 then .error .zeroDivisionError
  else
    let dw : ℚ := 1 / (width : ℚ)
    let dh : ℚ := 1 / (height : ℚ)
    .ok (((xmin + xmax) / 2) * dw, ((ymin + ymax) / 2) * dh,
         (xmax - xmin) * dw, (ymax - ymin) * dh)

/-- The absolute pixel box written by `TxtToXmlConverter.convert`
(xmlTools.py lines 324-331) for one normalized label line
`(cx, cy, w, h)` and image size `(Pwidth, Pheight)`:
`xmin = int((cx * Pwidth + 1) - w * 0.5 * Pwidth)` and so on,
returned as `(xmin, ymin, xmax, ymax)`. -/
def txtToXmlBox (Pwidth Pheight : ℤ) (cx cy w h : ℚ) : ℤ × ℤ × ℤ × ℤ :=
  (ratTrunc ((cx * Pwidth + 1) - w * (1/2) * Pwidth),
   ratTrunc ((cy * Pheight + 1) - h * (1/2) * Pheight),
   ratTrunc ((cx * Pwidth + 1) + w * (1/2) * Pwidth),
   ratTrunc ((cy * Pheight + 1) + h * (1/2) * Pheight))

/-- Denormalize a normalized box through the repository's TXT-to-XML path
and re-normalize the result with `XMLtoTXTConverter._convert_coordinate`
(the forward conversion), feeding the bbox in the `(xmin, xmax, ymin, ymax)`
order used at xmlTools.py line 186. -/
def roundTrip (W H : ℤ) (cx cy w h : ℚ) : Except ConvError (ℚ × ℚ × ℚ × ℚ) :=
  let b := txtToXmlBox W H cx cy w h
  convert_coordinate (W, H) ((b.1 : ℚ), (b.2.2.1 : ℚ), (b.2.1 : ℚ), (b.2.2.2 : ℚ))

/-- Python truthiness of an optional list (`None` and `[]` are both falsy,
which is how `xmlTools.py` tests `self.class_list` / `self.class_map_dist`). -/
def pyTruthy {α : Type} : Option (List α) → Bool
  | some l => !l.isEmpty
  | none => false

/-- Python truthiness of an optional string (`None` and `""` falsy). -/
def pyTruthyStr : Option String → Bool
  | some s => !s.isEmpty
  | none => false

/-- One `<object>` element of an annotation file as consumed by
`_convert_xml_to_txt`: its `<name>` text and, when a `<bndbox>` is present,
the parsed `(xmin, xmax, ymin, ymax)` floats (the tuple order built at
xmlTools.py line 186). -/
structure XmlObject where
  name : String
  bndbox : Option (ℚ × ℚ × ℚ × ℚ)
  deriving DecidableEq, Repr

/-- One input file of the XML→TXT conversion loop.  `unparsable` models a
file on which `ET.parse` raises; `parsed` carries the `<size>` element
(`none` when absent, making `size.find('width')` raise) and the `<object>`
list. -/
inductive XmlFile where
  | unparsable
  | parsed (size : Option (ℤ × ℤ)) (objects : List XmlObject)
  deriving DecidableEq, Repr

/-- The class registry an `XMLtoTXTConverter` holds (`class_list` and
`class_map_dist` constructor arguments; `class_dir` only affects the
`classes.txt` side output). -/
structure ConvCfg where
  class_list : Option (List String)
  class_map_dist : Option (List (String × String))
  deriving DecidableEq, Repr

/-- Python `dict` lookup on `class_map_dist` (keys are unique in a dict, so
first-match lookup is exact). -/
def dictLookup : List (String × String) → String → Option String
  | [], _ => none
  | (k, v) :: rest, n => if k = n then some v else dictLookup rest n

/-- Python `list.index`, returning `none` where Python raises `ValueError`.
`n ∈ l` (Python `in`) holds exactly when the result is `some`. -/
def listIndex : List String → String → Option ℕ
  | [], _ => none
  | a :: rest, n => if a = n then some 0 else (listIndex rest n).map (· + 1)

/-- One output line `obj_id x y w h` of the generated `.txt` file. -/
abbrev TxtLine : Type := ℕ × (ℚ × ℚ × ℚ × ℚ)

/-- The `bndbox` block of the object loop (xmlTools.py lines 180-190):
skipped when the object has no `<bndbox>`; otherwise `_convert_coordinate`
runs first and then the `format` call reads `obj_id`, raising `NameError`
when no branch ever assigned it. -/
def writeObjLine (imgshape : ℤ × ℤ) (obj : XmlObject) (objId : Option ℕ) :
    Except ConvError (Option TxtLine) :=
  match obj.bndbox with
  | none => .ok none
  | some bb =>
    match convert_coordinate imgshape bb with
    | .error e => .error e
    | .ok c =>
      match objId with
      | none => .error .nameError
      | some i => .ok (some (i, c))

/-- The per-object body of `_convert_xml_to_txt` (xmlTools.py lines 168-190):
`.ok none` models `continue` (object skipped), `.error` a raised exception. -/
def convertObj (cfg : ConvCfg) (imgshape : ℤ × ℤ) (obj : XmlObject) :
    Except ConvError (Option TxtLine) :=
  if pyTruthy cfg.class_map_dist && pyTruthy cfg.class_list then
    match dictLookup (cfg.class_map_dist.getD []) obj.name with
    | none => .ok none
    | some ncn =>
      match listIndex (cfg.class_list.getD []) ncn with
      | none => .error .valueError
      | some i => writeObjLine imgshape obj (some i)
  else if pyTruthy cfg.class_list then
    match listIndex (cfg.class_list.getD []) obj.name with
    | none => .ok none
    | some i => writeObjLine imgshape obj (some i)
  else
    writeObjLine imgshape obj none

/-- The object loop of `_convert_xml_to_txt` for one file, accumulating
`txtresult` in document order; the first exception aborts the file. -/
def convertObjs (cfg : ConvCfg) (imgshape : ℤ × ℤ) :
    List XmlObject → Except ConvError (List TxtLine)
  | [] => .ok []
  | o :: rest =>
    match convertObj cfg imgshape o with
    | .error e => .error e
    | .ok none => convertObjs cfg imgshape rest
    | .ok (some l) => (convertObjs cfg imgshape rest).map (l :: ·)

/-- Conversion of one XML file (xmlTools.py lines 155-196): parse, read
`<size>`, convert every object, yielding the lines written to the `.txt`
output file. -/
def convertOneXml (cfg : ConvCfg) : XmlFile → Except ConvError (List TxtLine)
  | .unparsable => .error .parseError
  | .parsed none _ => .error .attributeError
  | .parsed (some sh) objs => convertObjs cfg sh objs

/-- The loop `XMLtoTXTConverter._convert_xml_to_txt` over the whole corpus: files are
processed sequentially with no `try`/`except`, so the first exception
escapes the loop; the result is the list of per-file outputs actually
written before the exception (if any), paired with the escaped exception. -/
def convert_xml_to_txt (cfg : ConvCfg) : List XmlFile → List (List TxtLine) × Option ConvError
  | [] => ([], none)
  | f :: rest =>
    match convertOneXml cfg f with
    | .error e => ([], some e)
    | .ok t =>
      let r := convert_xml_to_txt cfg rest
      (t :: r.1, r.2)

/-- The output a successfully converted file contributes (empty for a
failing file); used to state what an aborted run has written. -/
def okOut (cfg : ConvCfg) (f : XmlFile) : List TxtLine :=
  ((convertOneXml cfg f).toOption).getD []

/-- The line that `_convert_xml_to_txt` writes for one object of a file that
converts without error, `none` when the object contributes no line. -/
def convertedLine (cfg : ConvCfg) (imgshape : ℤ × ℤ) (obj : XmlObject) : Option TxtLine :=
  match convertObj cfg imgshape obj with
  | .ok v => v
  | .error _ => none

/-- The registry-membership test `_convert_xml_to_txt` applies to an object
name before converting it: key of `class_map_dist` when both a map and a
list are configured, member of `class_list` when only a list is. -/
def resolvesName (cfg : ConvCfg) (n : String) : Bool :=
  if pyTruthy cfg.class_map_dist && pyTruthy cfg.class_list then
    (dictLookup (cfg.class_map_dist.getD []) n).isSome
  else if pyTruthy cfg.class_list then
    (listIndex (cfg.class_list.getD []) n).isSome
  else
    false

/-- Reasons construction / configuration checks abort a run at once. -/
inductive ConfigAbort where
  | missingClassSource
  | dirCountMismatch
  | splitImagesDirMissing (d : String)
  | imagesDirMissing
  | labelsDirMissing
  deriving DecidableEq, Repr

/-- The constructor `XMLtoTXTConverter.__init__` (xmlTools.py lines 106-115): calls `exit()`
when none of `class_dir`, `class_list`, `class_map_dist` is truthy. -/
def XMLtoTXTConverter_init (class_dir : Option String) (class_list : Option (List String))
    (class_map_dist : Option (List (String × String))) : Except ConfigAbort ConvCfg :=
  if pyTruthyStr class_dir || pyTruthy class_list || pyTruthy class_map_dist then
    .ok ⟨class_list, class_map_dist⟩
  else
    .error .missingClassSource

/-! Model of `check_format.py`. -/

/-- Accumulator pass over the characters for `pySplit`: whitespace ends the
current token (empty tokens are never produced). -/
def splitWsAux : List Char → List Char → List String
  | [], acc => if acc.isEmpty then [] else [String.mk acc.reverse]
  | c :: rest, acc =>
    if c.isWhitespace then
      if acc.isEmpty then splitWsAux rest []
      else String.mk acc.reverse :: splitWsAux rest []
    else splitWsAux rest (c :: acc)

/-- Python `str.split()` with no separator: split on whitespace runs,
yielding no empty tokens (leading/trailing whitespace is irrelevant, which
also makes a preceding `str.strip()` a no-op for tokenization). -/
def pySplit (s : String) : List String := splitWsAux s.data []

/-- A nonempty all-digit token: what the regex group `(\d+)` accepts. -/
def isDigitStr (s : String) : Bool :=
  !s.isEmpty && s.data.all Char.isDigit

/-- A nonempty token of digits and dots: what `([\d.]+)` accepts. -/
def isDigitDotStr (s : String) : Bool :=
  !s.isEmpty && s.data.all (fun c => c.isDigit || c = '.')

/-- The pattern `yolo_line_pattern` (check_format.py line 34), the regex
`^\s*(\d+)\s+([\d.]+)\s+([\d.]+)\s+([\d.]+)\s+([\d.]+)\s*$` applied to a
stripped line, phrased on its whitespace-token decomposition: exactly five
tokens, the first all digits, the other four digits-and-dots. -/
def yolo_line_pattern (toks : List String) : Bool :=
  toks.length = 5 && isDigitStr (toks.headD "") && (toks.drop 1).all isDigitDotStr

/-- Numeric value of an all-digit character list (base 10). -/
def digitsVal (cs : List Char) : ℕ :=
  cs.foldl (fun n c => n * 10 + (c.toNat - 48)) 0

/-- Split a character list at every dot, keeping empty pieces (like
Python's `"x.y".split('.')`). -/
def splitOnDot : List Char → List Char → List (List Char)
  | [], acc => [acc.reverse]
  | c :: rest, acc =>
    if c = '.' then acc.reverse :: splitOnDot rest []
    else splitOnDot rest (c :: acc)

/-- Python `float()` on a token the regex restricted to `[\d.]+`: at most
one dot and at least one digit, otherwise `ValueError` (`none`). -/
def pyParseDotFloat (s : String) : Option ℚ :=
  match splitOnDot s.data [] with
  | [ip] => if ip.isEmpty then none else some ((digitsVal ip : ℕ) : ℚ)
  | [ip, fp] =>
    if ip.isEmpty && fp.isEmpty then none
    else some ((digitsVal ip : ℚ) + (digitsVal fp : ℚ) / (10 : ℚ) ^ fp.length)
  | _ => none

/-- The kinds of per-line findings `validate_yolo_dataset` appends to
`invalid_annotations` (check_format.py lines 131-155). -/
inductive LineFlag where
  /-- Format mismatch (the 格式错误 entry): the line does not match `yolo_line_pattern`. -/
  | formatError
  /-- Coordinates outside 0-1 (the 坐标超出 entry). -/
  | coordOutOfRange
  /-- Class id above the configured maximum (the 超过最大允许值 entry). -/
  | classIdOutOfRange
  /-- Negative class id (the 类别ID为负数 entry). -/
  | negativeClassId
  deriving DecidableEq, Repr

/-- The per-line body of `validate_yolo_dataset` (check_format.py lines
126-155) on one nonblank line: regex match, coordinate-range check, and the
class-id checks, in source order.  `none` models a `float()` `ValueError`
escaping to the per-file `except` handler. -/
def checkLine (max_class_id : Option ℤ) (rawLine : String) : Option (List LineFlag) :=
  let toks := pySplit rawLine
  if yolo_line_pattern toks then
    let class_id : ℤ := (digitsVal (toks.headD "").data : ℕ)
    match (toks.drop 1).mapM pyParseDotFloat with
    | none => none
    | some coords =>
      let coordFlags :=
        if coords.all (fun q => decide (0 ≤ q) && decide (q ≤ 1)) then []
        else [LineFlag.coordOutOfRange]
      let idFlags :=
        if (match max_class_id with
            | some m => decide (m < class_id)
            | none => false) then [LineFlag.classIdOutOfRange]
        else if class_id < 0 then [LineFlag.negativeClassId]
        else []
      some (coordFlags ++ idFlags)
  else
    some [LineFlag.formatError]

/-- One entry of a label file's contribution to `invalid_annotations`. -/
inductive Issue where
  /-- Empty file (the 空文件 entry): the file has no nonblank line. -/
  | emptyFile
  /-- A `checkLine` finding on 1-based line `idx`. -/
  | lineIssue (idx : ℕ) (flag : LineFlag)
  /-- Read error (the 读取错误 entry): an exception while processing the file. -/
  | readError
  deriving DecidableEq, Repr

/-- The `for line_num, line in enumerate(lines, 1)` loop of
`validate_yolo_dataset`; an escaped exception aborts the remaining lines
and records a read error for the file. -/
def checkLinesLoop (max_class_id : Option ℤ) : ℕ → List String → List Issue
  | _, [] => []
  | i, l :: rest =>
    if (pySplit l).isEmpty then checkLinesLoop max_class_id (i + 1) rest
    else
      match checkLine max_class_id l with
      | none => [Issue.readError]
      | some fls => fls.map (Issue.lineIssue i) ++ checkLinesLoop max_class_id (i + 1) rest

/-- Per-label-file validation (check_format.py lines 114-158): an entirely
blank file is flagged empty, otherwise every line is checked. -/
def checkLabelFile (max_class_id : Option ℤ) (lines : List String) : List Issue :=
  if lines.all (fun l => (pySplit l).isEmpty) then [Issue.emptyFile]
  else checkLinesLoop max_class_id 1 lines

/-- The control flow of `validate_yolo_dataset` around the label-syntax stage:
a missing images or labels directory returns immediately
(check_format.py lines 41-49) and no label file is examined; otherwise
every label file is checked and its findings collected. -/
def validate_yolo_dataset (imagesDirExists labelsDirExists : Bool)
    (max_class_id : Option ℤ) (labelFiles : List (List String)) :
    Except ConfigAbort (List (List Issue)) :=
  if !imagesDirExists then .error .imagesDirMissing
  else if !labelsDirExists then .error .labelsDirMissing
  else .ok (labelFiles.map (checkLabelFile max_class_id))

/-! Model of `split_dataset.py`. -/

/-- The configuration validation of `split_dataset` (split_dataset.py lines
141-164): after normalizing `labels_dir` (defaulting to the image
directories), a count mismatch raises `ValueError`, then each images
directory is required to exist (a missing labels directory only warns). -/
def splitConfigCheck (images_dir : List String) (labels_dir : Option (List String))
    (dirExists : String → Bool) : Except ConfigAbort Unit :=
  let labels_dir_list := labels_dir.getD images_dir
  if images_dir.length ≠ labels_dir_list.length then .error .dirCountMismatch
  else
    match images_dir.find? (fun d => !dirExists d) with
    | some d => .error (.splitImagesDirMissing d)
    | none => .ok ()

/-- A seedable sampling-without-replacement primitive: the collaborator
`random.seed` / `random.sample` of `split_dataset.py`.  Determinism under a
fixed seed is captured by `sample` being a function of the state. -/
structure Sampler (σ : Type) where
  init : ℕ → σ
  sample : σ → List ℕ → ℕ → List ℕ × σ

/-- The documented contract of `random.sample(population, k)` for
`k ≤ len(population)`: `k` results, pairwise distinct (for a duplicate-free
population), all drawn from the population. -/
def SamplerOk {σ : Type} (S : Sampler σ) : Prop :=
  ∀ st pop k, k ≤ pop.length → pop.Nodup →
    (S.sample st pop k).1.length = k ∧ (S.sample st pop k).1.Nodup ∧
      ∀ x ∈ (S.sample st pop k).1, x ∈ pop

/-- The split sizes and index partition `split_dataset` computes. -/
structure SplitResult where
  num_trainval : ℤ
  num_train : ℤ
  num_val : ℤ
  num_test : ℤ
  trainval : List ℕ
  train : List ℕ
  val : List ℕ
  test : List ℕ

/-- The partitioning core of `split_dataset` (split_dataset.py lines
229-248): `num_trainval = int(num_total * trainval_percent)`,
`num_train = int(num_trainval * train_percent)`, then two
`random.sample` stages over `indices = list(range(num_total))`, with
`val`/`test` as the order-preserving complements. -/
def split_dataset {σ : Type} (S : Sampler σ) (seed : ℕ) (num_total : ℕ)
    (trainval_percent train_percent : ℚ) : SplitResult :=
  let st0 := S.init seed
  let indices := List.range num_total
  let num_trainval := ratTrunc ((num_total : ℚ) * trainval_percent)
  let num_train := ratTrunc ((num_trainval : ℚ) * train_percent)
  let num_val := num_trainval - num_train
  let num_test := (num_total : ℤ) - num_trainval
  let s1 := S.sample st0 indices num_trainval.toNat
  let s2 := S.sample s1.2 s1.1 num_train.toNat
  let val := s1.1.filter (fun i => !s2.1.contains i)
  let test := indices.filter (fun i => !s1.1.contains i)
  ⟨num_trainval, num_train, num_val, num_test, s1.1, s2.1, val, test⟩

/-- A concrete sampler (prefix of the population) satisfying the
`random.sample` contract, used to instantiate theorems about the split. -/
def takeSampler : Sampler Unit :=
  ⟨fun _ => (), fun _ pop k => (pop.take k, ())⟩

/-! Model of `yolo_labels_distribution.py`. -/

/-- The digits of a Python integer literal, `none` when empty or not all
digits (`int()` raises `ValueError`). -/
def digitsToNat? (cs : List Char) : Option ℕ :=
  if cs.isEmpty then none
  else if cs.all Char.isDigit then some (digitsVal cs) else none

/-- Python `int()` on a whitespace-free token: optional sign then digits. -/
def pyParseIntTok (s : String) : Option ℤ :=
  match s.data with
  | '-' :: rest => (digitsToNat? rest).map (fun n => -(n : ℤ))
  | '+' :: rest => (digitsToNat? rest).map (fun n => (n : ℤ))
  | cs => (digitsToNat? cs).map (fun n => (n : ℤ))

/-- What reading one label file leaves behind: the class ids counted (in
line order; `labels_counter` increments survive an exception) and whether
an exception aborted the file (in which case its `objects_per_image`
bucket is never incremented). -/
structure FileStats where
  ids : List ℤ
  aborted : Bool
  deriving DecidableEq, Repr

/-- The per-file line loop of `analyze_labels_distribution`
(yolo_labels_distribution.py lines 158-167): a line with at least 5
whitespace tokens has `int(parts[0])` taken as its class id — the four
coordinate tokens are never touched; a failing `int()` aborts the file via
the surrounding `except`. -/
def processLabelFile : List String → FileStats
  | [] => ⟨[], false⟩
  | l :: rest =>
    let toks := pySplit l
    if 5 ≤ toks.length then
      match pyParseIntTok (toks.headD "") with
      | none => ⟨[], true⟩
      | some c =>
        let r := processLabelFile rest
        ⟨c :: r.ids, r.aborted⟩
    else processLabelFile rest

/-- The aggregate statistics `analyze_labels_distribution` builds. -/
structure AnalyzerStats where
  total_label_files : ℕ
  labels_counter : ℤ → ℕ
  objects_per_image : ℕ → ℕ
  total_objects : ℕ

/-- The method `YOLOLabelAnalyzer.analyze_labels_distribution`
(yolo_labels_distribution.py lines 129-188) over the already-filtered label
files (each given as its list of lines): `total_label_files` is the file
count, `labels_counter` tallies class ids over all files (aborted files
keep the ids counted before the exception), `objects_per_image` is bumped
once per non-aborted file at its object count, and the returned flag is
`False` when there are no files or no labels at all. -/
def analyze_labels_distribution (files : List (List String)) : AnalyzerStats × Bool :=
  if files.isEmpty then (⟨0, fun _ => 0, fun _ => 0, 0⟩, false)
  else
    let results := files.map processLabelFile
    let allIds := (results.map FileStats.ids).flatten
    (⟨files.length, fun c => allIds.count c,
      fun k => (results.filter (fun r => !r.aborted)).countP (fun r => r.ids.length == k),
      allIds.length⟩, !allIds.isEmpty)

/-- The class id the analyzer counts for one line, if any. -/
def lineClassId (l : String) : Option ℤ :=
  let toks := pySplit l
  if 5 ≤ toks.length then pyParseIntTok (toks.headD "") else none

/-- Whether the analyzer counts the line as one object. -/
def countsAsObject (l : String) : Bool :=
  decide (5 ≤ (pySplit l).length) && (pyParseIntTok ((pySplit l).headD "")).isSome

/-! Model of `XMLLabelSummarizer` (xmlTools.py lines 30-93). -/

/-- One step of `_count_names`' dictionary update
`name_count[name] = name_count.get(name, 0) + 1`, on the dictionary as an
insertion-ordered association list: a known name is bumped in place, a new
name appended. -/
def bumpName : List (String × ℕ) → String → List (String × ℕ)
  | [], n => [(n, 1)]
  | (k, c) :: rest, n =>
    if k = n then (k, c + 1) :: rest else (k, c) :: bumpName rest n

/-- The dictionary `self.name_count` after scanning the corpus, whose `<object>` names are
abstracted to the sequence in which `_count_names` encounters them. -/
def name_count (names : List String) : List (String × ℕ) :=
  names.foldl bumpName []

/-- The method `XMLLabelSummarizer.get_class_list` (xmlTools.py lines 91-93):
`sorted(self.name_count, key=self.name_count.get, reverse=True)` — a stable
sort of the dictionary keys by descending count (CPython's `sorted` is
stable, also under `reverse=True`). -/
def get_class_list (nc : List (String × ℕ)) : List String :=
  (nc.mergeSort (fun a b => decide (b.2 ≤ a.2))).map Prod.fst

/-- The scanned names in order of first appearance (Python dict key
insertion order). -/
def firstSeenList (names : List String) : List String :=
  names.foldl (fun acc n => if n ∈ acc then acc else acc ++ [n]) []

theorem abs_ratTrunc_sub_lt (q : ℚ) : |(ratTrunc q : ℚ) - q| < 1 := by
  unfold ratTrunc
  split
  · rw [abs_lt]
    constructor
    · have h := Int.lt_floor_add_one q
      push_cast at h
      linarith
    · have h := Int.floor_le q
      linarith
  · rw [abs_lt]
    constructor
    · have h := Int.le_ceil q
      linarith
    · have h := Int.ceil_lt_add_one q
      push_cast at h
      linarith

theorem center_shift_bound (Wq q1 q2 t1 t2 c : ℚ) (hq : 0 < Wq)
    (h1 : |t1 - q1| < 1) (h2 : |t2 - q2| < 1) (hsum : q1 + q2 = 2 * c * Wq + 2) :
    |((t1 + t2) / 2) * (1 / Wq) - (c + 1 / Wq)| < 1 / Wq := by
  have hW0 : Wq ≠ 0 := ne_of_gt hq
  have expand : t1 + t2 = ((t1 - q1) + (t2 - q2)) + (2 * c * Wq + 2) := by
    rw [← hsum]; ring
  have key : ((t1 + t2) / 2) * (1 / Wq) - (c + 1 / Wq)
      = ((t1 - q1) + (t2 - q2)) / (2 * Wq) := by
    rw [expand]; field_simp; ring
  rw [key, abs_div, abs_of_pos (by positivity : (0 : ℚ) < 2 * Wq),
    div_lt_iff₀ (by positivity : (0 : ℚ) < 2 * Wq)]
  have hmul : 1 / Wq * (2 * Wq) = 2 := by field_simp
  rw [hmul]
  calc |t1 - q1 + (t2 - q2)| ≤ |t1 - q1| + |t2 - q2| := abs_add _ _
    _ < 2 := by linarith

theorem size_shift_bound (Wq q1 q2 t1 t2 s : ℚ) (hq : 0 < Wq)
    (h1 : |t1 - q1| < 1) (h2 : |t2 - q2| < 1) (hdiff : q2 - q1 = s * Wq) :
    |(t2 - t1) * (1 / Wq) - s| < 2 / Wq := by
  have hW0 : Wq ≠ 0 := ne_of_gt hq
  have expand : t2 - t1 = ((t2 - q2) - (t1 - q1)) + s * Wq := by
    linear_combination hdiff
  have key : (t2 - t1) * (1 / Wq) - s = ((t2 - q2) - (t1 - q1)) / Wq := by
    rw [expand]; field_simp; ring
  rw [key, abs_div, abs_of_pos hq, div_lt_div_iff₀ hq hq]
  have : |t2 - q2 - (t1 - q1)| * Wq < 2 * Wq := by
    have habs : |t2 - q2 - (t1 - q1)| < 2 := by
      calc |t2 - q2 - (t1 - q1)| ≤ |t2 - q2| + |t1 - q1| := abs_sub _ _
        _ < 2 := by linarith
    exact mul_lt_mul_of_pos_right habs hq
  linarith

theorem convert_coordinate_ok (W H : ℤ) (hW : W ≠ 0) (hH : H ≠ 0) (b : ℚ × ℚ × ℚ × ℚ) :
    convert_coordinate (W, H) b =
      .ok (((b.1 + b.2.1) / 2) * (1 / (W : ℚ)), ((b.2.2.1 + b.2.2.2) / 2) * (1 / (H : ℚ)),
        (b.2.1 - b.1) * (1 / (W : ℚ)), (b.2.2.2 - b.2.2.1) * (1 / (H : ℚ))) := by
  obtain ⟨xmin, xmax, ymin, ymax⟩ := b
  simp [convert_coordinate, hW, hH]

/-- C1 (counterexample).  Denormalizing the normalized box
`(1/2, 1/2, 1/2, 1/2)` through the TXT-to-XML path on a 2×2 image and
re-normalizing with `_convert_coordinate` yields `(3/4, 3/4, 1/2, 1/2)`,
whose center is off by `1/4` — far beyond any epsilon tolerance, so the
round-trip does not return the original box. -/
theorem c1_roundtrip_counterexample :
    roundTrip 2 2 (1/2) (1/2) (1/2) (1/2) = .ok (3/4, 3/4, 1/2, 1/2) ∧
      (1 : ℚ) / 1000000 < |(3/4 : ℚ) - 1/2| := by
  constructor
  · rw [roundTrip, convert_coordinate_ok 2 2 (by decide) (by decide)]
    norm_num [txtToXmlBox, ratTrunc]
  · rw [show (3/4 : ℚ) - 1/2 = 1/4 by norm_num, abs_of_pos (by norm_num)]
    norm_num

/-- C1 (amended).  For every normalized box `(cx, cy, w, h)` and every image
size with positive width `W` and height `H`, denormalizing through the
repository's TXT-to-XML path and re-normalizing with
`XMLtoTXTConverter._convert_coordinate` succeeds and returns the box with its
center shifted by `(1/W, 1/H)` (the `+1` pixel bias of the XML writer) and its
width/height preserved, up to the pixel-truncation error: the recovered center
is within `1/W` (resp. `1/H`) of `(cx + 1/W, cy + 1/H)` and the recovered
width/height within `2/W` (resp. `2/H`) of `(w, h)`. -/
theorem c1_roundtrip_shifted (W H : ℤ) (cx cy w h : ℚ) (hW : 0 < W) (hH : 0 < H) :
    ∃ v : ℚ × ℚ × ℚ × ℚ, roundTrip W H cx cy w h = .ok v ∧
      |v.1 - (cx + 1 / (W : ℚ))| < 1 / (W : ℚ) ∧
      |v.2.1 - (cy + 1 / (H : ℚ))| < 1 / (H : ℚ) ∧
      |v.2.2.1 - w| < 2 / (W : ℚ) ∧ |v.2.2.2 - h| < 2 / (H : ℚ) := by
  have hWQ : (0 : ℚ) < (W : ℚ) := by exact_mod_cast hW
  have hHQ : (0 : ℚ) < (H : ℚ) := by exact_mod_cast hH
  rw [roundTrip, convert_coordinate_ok W H hW.ne' hH.ne']
  refine ⟨_, rfl, ?_, ?_, ?_, ?_⟩
  · exact center_shift_bound (W : ℚ) _ _ _ _ cx hWQ
      (abs_ratTrunc_sub_lt _) (abs_ratTrunc_sub_lt _) (by ring)
  · exact center_shift_bound (H : ℚ) _ _ _ _ cy hHQ
      (abs_ratTrunc_sub_lt _) (abs_ratTrunc_sub_lt _) (by ring)
  · exact size_shift_bound (W : ℚ) _ _ _ _ w hWQ
      (abs_ratTrunc_sub_lt _) (abs_ratTrunc_sub_lt _) (by ring)
  · exact size_shift_bound (H : ℚ) _ _ _ _ h hHQ
      (abs_ratTrunc_sub_lt _) (abs_ratTrunc_sub_lt _) (by ring)

/-- C1 (witness).  The amended round-trip bound instantiated on a 2×3 image
with the box `(1/2, 1/2, 1/2, 1/2)`. -/
theorem c1_roundtrip_shifted_witness :
    ∃ v : ℚ × ℚ × ℚ × ℚ, roundTrip 2 3 (1/2) (1/2) (1/2) (1/2) = .ok v ∧
      |v.1 - (1/2 + 1 / ((2 : ℤ) : ℚ))| < 1 / ((2 : ℤ) : ℚ) ∧
      |v.2.1 - (1/2 + 1 / ((3 : ℤ) : ℚ))| < 1 / ((3 : ℤ) : ℚ) ∧
      |v.2.2.1 - 1/2| < 2 / ((2 : ℤ) : ℚ) ∧ |v.2.2.2 - 1/2| < 2 / ((3 : ℤ) : ℚ) :=
  c1_roundtrip_shifted 2 3 (1/2) (1/2) (1/2) (1/2) (by decide) (by decide)

/-- C5 (counterexample).  `_convert_coordinate` on a negative image width
(`width = -1`, `height = 5`) does not fail at all: it returns a (meaningless)
normalized box, refuting the claim that zero-or-negative dimensions fail
with an `InvalidGeometry` error. -/
theorem c5_negative_width_succeeds :
    convert_coordinate (-1, 5) (0, 1, 0, 1) = .ok (-1/2, 1/10, -1, 1/5) := by
  rw [convert_coordinate_ok (-1) 5 (by decide) (by decide)]
  norm_num

/-- C5 (amended).  `_convert_coordinate` fails — with Python's
`ZeroDivisionError`, there is no `InvalidGeometry` error in the code —
exactly when the image width or height is zero; for every nonzero width and
height, including negative ones, it succeeds. -/
theorem c5_zero_division_iff (W H : ℤ) (b : ℚ × ℚ × ℚ × ℚ) :
    (convert_coordinate (W, H) b = .error .zeroDivisionError ↔ (W = 0 ∨ H = 0)) ∧
      ((∃ v, convert_coordinate (W, H) b = .ok v) ↔ (W ≠ 0 ∧ H ≠ 0)) := by
  obtain ⟨xmin, xmax, ymin, ymax⟩ := b
  by_cases hW : W = 0
  · simp [convert_coordinate, hW]
  · by_cases hH : H = 0
    · simp [convert_coordinate, hW, hH]
    · refine ⟨by simp [convert_coordinate, hW, hH], ?_⟩
      refine iff_of_true ⟨_, convert_coordinate_ok W H hW hH _⟩ ⟨hW, hH⟩

theorem convertObj_eq_of_isOk (cfg : ConvCfg) (sh : ℤ × ℤ) (obj : XmlObject)
    (h : (convertObj cfg sh obj).isOk = true) :
    convertObj cfg sh obj = .ok (convertedLine cfg sh obj) := by
  cases hc : convertObj cfg sh obj with
  | error e => rw [hc] at h; simp [Except.isOk, Except.toBool] at h
  | ok v => rw [convertedLine, hc]

theorem writeObjLine_isOk (sh : ℤ × ℤ) (obj : XmlObject) (i : ℕ)
    (hW : sh.1 ≠ 0) (hH : sh.2 ≠ 0) : (writeObjLine sh obj (some i)).isOk = true := by
  obtain ⟨W, H⟩ := sh
  cases hb : obj.bndbox with
  | none => simp [writeObjLine, hb, Except.isOk, Except.toBool]
  | some bb =>
    simp [writeObjLine, hb, convert_coordinate_ok W H hW hH, Except.isOk, Except.toBool]

theorem convertObj_isOk (cfg : ConvCfg) (sh : ℤ × ℤ) (obj : XmlObject)
    (hlist : pyTruthy cfg.class_list = true) (hW : sh.1 ≠ 0) (hH : sh.2 ≠ 0)
    (hmap : ∀ ncn, dictLookup (cfg.class_map_dist.getD []) obj.name = some ncn →
      (listIndex (cfg.class_list.getD []) ncn).isSome = true) :
    (convertObj cfg sh obj).isOk = true := by
  by_cases hm : (pyTruthy cfg.class_map_dist && pyTruthy cfg.class_list) = true
  · cases hd : dictLookup (cfg.class_map_dist.getD []) obj.name with
    | none => simp [convertObj, hm, hd, Except.isOk, Except.toBool]
    | some ncn =>
      have hi := hmap ncn hd
      cases hidx : listIndex (cfg.class_list.getD []) ncn with
      | none => rw [hidx] at hi; simp at hi
      | some i => simp [convertObj, hm, hd, hidx, writeObjLine_isOk sh obj i hW hH]
  · have hmapF : pyTruthy cfg.class_map_dist = false := by
      revert hm
      rw [hlist]
      cases pyTruthy cfg.class_map_dist <;> simp
    cases hidx : listIndex (cfg.class_list.getD []) obj.name with
    | none => simp [convertObj, hmapF, hlist, hidx, Except.isOk, Except.toBool]
    | some i => simp [convertObj, hmapF, hlist, hidx, writeObjLine_isOk sh obj i hW hH]

theorem convertObjs_eq_filterMap (cfg : ConvCfg) (sh : ℤ × ℤ) (objs : List XmlObject)
    (h : ∀ obj ∈ objs, convertObj cfg sh obj = .ok (convertedLine cfg sh obj)) :
    convertObjs cfg sh objs = .ok (objs.filterMap (convertedLine cfg sh)) := by
  induction objs with
  | nil => rfl
  | cons o rest ih =>
    have ho := h o (List.mem_cons_self o rest)
    have hrest := ih (fun x hx => h x (List.mem_cons_of_mem o hx))
    cases hv : convertedLine cfg sh o with
    | none =>
      rw [hv] at ho
      simp [convertObjs, ho, hrest, List.filterMap_cons, hv]
    | some l =>
      rw [hv] at ho
      simp [convertObjs, ho, hrest, List.filterMap_cons, hv, Except.map]

theorem pyTruthy_map_false {α β : Type} {m : Option (List α)} {l : Option (List β)}
    (hm : ¬(pyTruthy m && pyTruthy l) = true) (hl : pyTruthy l = true) :
    pyTruthy m = false := by
  revert hm
  rw [hl]
  cases pyTruthy m <;> simp

/-- C2 (counterexample).  Running the corpus conversion on two files, the
first unparsable and the second perfectly convertible, aborts the whole run
with the parse exception: nothing at all is converted, in particular the
healthy second file (shown convertible on its own) is never reached. -/
theorem c2_bad_file_aborts_whole_run :
    convert_xml_to_txt ⟨some ["a"], none⟩
        [XmlFile.unparsable, .parsed (some (4, 4)) [⟨"a", some (0, 2, 0, 2)⟩]]
      = ([], some .parseError) ∧
    convertOneXml ⟨some ["a"], none⟩ (.parsed (some (4, 4)) [⟨"a", some (0, 2, 0, 2)⟩])
      = .ok [(0, (1/4, 1/4, 1/2, 1/2))] := by
  constructor
  · rfl
  · norm_num [convertOneXml, convertObjs, convertObj, writeObjLine, convert_coordinate,
      pyTruthy, dictLookup, listIndex, Except.map]

/-- C2 (amended).  `_convert_xml_to_txt` has no per-file error handling: the
first file on which conversion raises aborts the run with that exception;
the files before it have been written, and every file after it — healthy or
not — is left unconverted. -/
theorem c2_first_failure_aborts (cfg : ConvCfg) (pre : List XmlFile) (f : XmlFile)
    (post : List XmlFile) (e : ConvError)
    (hpre : ∀ g ∈ pre, (convertOneXml cfg g).isOk = true)
    (hf : convertOneXml cfg f = .error e) :
    convert_xml_to_txt cfg (pre ++ f :: post) = (pre.map (okOut cfg), some e) := by
  induction pre with
  | nil => simp [convert_xml_to_txt, hf]
  | cons g rest ih =>
    have hg := hpre g (List.mem_cons_self g rest)
    cases hc : convertOneXml cfg g with
    | error e2 => rw [hc] at hg; simp [Except.isOk, Except.toBool] at hg
    | ok t =>
      have hr := ih (fun x hx => hpre x (List.mem_cons_of_mem g hx))
      simp [convert_xml_to_txt, hc, hr, okOut, Except.toOption]

/-- C2 (witness).  The amended statement instantiated on a corpus
`[healthy, unparsable, healthy]`: only the first file's output is written
and the run ends with the parse exception. -/
theorem c2_first_failure_aborts_witness :
    convert_xml_to_txt ⟨some ["a"], none⟩
        [.parsed (some (4, 4)) [⟨"a", some (0, 2, 0, 2)⟩], XmlFile.unparsable,
          .parsed (some (4, 4)) [⟨"a", some (0, 2, 0, 2)⟩]]
      = ([[(0, (1/4, 1/4, 1/2, 1/2))]], some .parseError) := by
  have h := c2_first_failure_aborts ⟨some ["a"], none⟩
    [.parsed (some (4, 4)) [⟨"a", some (0, 2, 0, 2)⟩]] XmlFile.unparsable
    [.parsed (some (4, 4)) [⟨"a", some (0, 2, 0, 2)⟩]] .parseError
    (by
      intro g hg
      simp only [List.mem_singleton] at hg
      subst hg
      norm_num [convertOneXml, convertObjs, convertObj, writeObjLine, convert_coordinate,
        pyTruthy, dictLookup, listIndex, Except.map, Except.isOk, Except.toBool])
    rfl
  rw [show ([.parsed (some (4, 4)) [⟨"a", some (0, 2, 0, 2)⟩], XmlFile.unparsable,
      .parsed (some (4, 4)) [⟨"a", some (0, 2, 0, 2)⟩]] : List XmlFile)
    = [XmlFile.parsed (some (4, 4)) [⟨"a", some (0, 2, 0, 2)⟩]] ++ XmlFile.unparsable ::
      [.parsed (some (4, 4)) [⟨"a", some (0, 2, 0, 2)⟩]] from rfl, h]
  norm_num [okOut, convertOneXml, convertObjs, convertObj, writeObjLine, convert_coordinate,
    pyTruthy, dictLookup, listIndex, Except.map, Except.toOption]

/-- C3 (confirmed).  During XML→TXT conversion of a file (with a truthy
class list, nonzero image dimensions, and — when a class map is also
configured — map targets that occur in the class list), an object whose
name fails the registry membership test is skipped without any error and
contributes no output line, while every sibling object that passes the test
and has a bounding box contributes its converted line; the file's output is
exactly the in-order lines of the resolvable objects. -/
theorem c3_unresolvable_class_skipped (cfg : ConvCfg) (W H : ℤ) (objs : List XmlObject)
    (hlist : pyTruthy cfg.class_list = true) (hW : W ≠ 0) (hH : H ≠ 0)
    (hmap : ∀ obj ∈ objs, ∀ ncn, dictLookup (cfg.class_map_dist.getD []) obj.name = some ncn →
      (listIndex (cfg.class_list.getD []) ncn).isSome = true) :
    convertOneXml cfg (.parsed (some (W, H)) objs)
        = .ok (objs.filterMap (convertedLine cfg (W, H))) ∧
      (∀ obj : XmlObject, resolvesName cfg obj.name = false →
        convertedLine cfg (W, H) obj = none) ∧
      (∀ obj ∈ objs, resolvesName cfg obj.name = true → obj.bndbox.isSome = true →
        (convertedLine cfg (W, H) obj).isSome = true) := by
  refine ⟨?_, ?_, ?_⟩
  · rw [convertOneXml]
    exact convertObjs_eq_filterMap cfg (W, H) objs (fun obj hobj =>
      convertObj_eq_of_isOk _ _ _ (convertObj_isOk cfg (W, H) obj hlist hW hH (hmap obj hobj)))
  · intro obj hres
    by_cases hm : (pyTruthy cfg.class_map_dist && pyTruthy cfg.class_list) = true
    · rw [resolvesName, if_pos hm] at hres
      cases hd : dictLookup (cfg.class_map_dist.getD []) obj.name with
      | some ncn => rw [hd] at hres; simp at hres
      | none => simp [convertedLine, convertObj, hm, hd]
    · have hmapF := pyTruthy_map_false hm hlist
      rw [resolvesName, if_neg hm, if_pos hlist] at hres
      cases hidx : listIndex (cfg.class_list.getD []) obj.name with
      | some i => rw [hidx] at hres; simp at hres
      | none => simp [convertedLine, convertObj, hmapF, hlist, hidx]
  · intro obj hobj hres hbb
    obtain ⟨bb, hb⟩ := Option.isSome_iff_exists.mp hbb
    by_cases hm : (pyTruthy cfg.class_map_dist && pyTruthy cfg.class_list) = true
    · rw [resolvesName, if_pos hm] at hres
      obtain ⟨ncn, hd⟩ := Option.isSome_iff_exists.mp hres
      obtain ⟨i, hidx⟩ := Option.isSome_iff_exists.mp (hmap obj hobj ncn hd)
      simp [convertedLine, convertObj, hm, hd, hidx, writeObjLine, hb,
        convert_coordinate_ok W H hW hH]
    · have hmapF := pyTruthy_map_false hm hlist
      rw [resolvesName, if_neg hm, if_pos hlist] at hres
      obtain ⟨i, hidx⟩ := Option.isSome_iff_exists.mp hres
      simp [convertedLine, convertObj, hmapF, hlist, hidx, writeObjLine, hb,
        convert_coordinate_ok W H hW hH]

/-- C3 (witness).  A file holding objects named `dog` (not in the registry)
and `cat` (in the registry `["cat"]`): conversion succeeds, the `dog`
object is dropped, and the `cat` object is written. -/
theorem c3_unresolvable_class_skipped_witness :
    convertOneXml ⟨some ["cat"], none⟩
        (.parsed (some (4, 4)) [⟨"dog", some (0, 2, 0, 2)⟩, ⟨"cat", some (0, 2, 0, 2)⟩])
      = .ok [(0, (1/4, 1/4, 1/2, 1/2))] ∧
    convertedLine ⟨some ["cat"], none⟩ (4, 4) ⟨"dog", some (0, 2, 0, 2)⟩ = none ∧
    (convertedLine ⟨some ["cat"], none⟩ (4, 4) ⟨"cat", some (0, 2, 0, 2)⟩).isSome = true := by
  obtain ⟨h1, h2, h3⟩ := c3_unresolvable_class_skipped ⟨some ["cat"], none⟩ 4 4
    [⟨"dog", some (0, 2, 0, 2)⟩, ⟨"cat", some (0, 2, 0, 2)⟩]
    (by decide) (by decide) (by decide)
    (by intro obj _ ncn hc; simp [dictLookup] at hc)
  refine ⟨?_, h2 ⟨"dog", some (0, 2, 0, 2)⟩ (by decide),
    h3 ⟨"cat", some (0, 2, 0, 2)⟩ (by simp) (by decide) (by decide)⟩
  rw [h1]
  simp only [convertedLine, convertObj, writeObjLine, convert_coordinate,
    pyTruthy, dictLookup, listIndex, List.filterMap, String.reduceEq, reduceIte]
  norm_num

/-- C4 (code evaluated at the failing input).  The label line
`"-1 0.5 0.5 0.5 0.5"` is flagged as a line-format error — the regex group
`(\d+)` cannot match the minus sign — and, whatever the configuration and
the line, the validator can never emit the negative-class-id flag: the
`class_id < 0` branch (check_format.py line 152) is dead code, because a
matched class id is a digit string and hence non-negative. -/
theorem c4_negative_id_is_format_error :
    checkLine none "-1 0.5 0.5 0.5 0.5" = some [LineFlag.formatError] ∧
      checkLine (some 3) "-1 0.5 0.5 0.5 0.5" = some [LineFlag.formatError] ∧
      ∀ (max_class_id : Option ℤ) (line : String),
        LineFlag.negativeClassId ∉ (checkLine max_class_id line).getD [] := by
  refine ⟨by decide, by decide, ?_⟩
  intro maxId line
  rw [checkLine]
  by_cases hm : yolo_line_pattern (pySplit line) = true
  · rw [if_pos hm]
    cases hc : ((pySplit line).drop 1).mapM pyParseDotFloat with
    | none => simp
    | some coords =>
      have hid : ¬((digitsVal ((pySplit line).headD "").data : ℤ) < 0) :=
        Int.not_lt.mpr (Int.ofNat_nonneg _)
      intro hmem
      simp only [Option.getD_some, List.mem_append] at hmem
      rcases hmem with hmem | hmem
      · revert hmem
        split <;> simp
      · revert hmem
        split
        · simp
        · simp [if_neg hid]
  · rw [if_neg hm]
    simp

/-- C9 (confirmed).  Configuration-level errors abort at once, before any
per-file work: the splitter's config check succeeds exactly when the image
and label directory counts match and every images directory exists (raising
otherwise); `XMLtoTXTConverter.__init__` exits exactly when none of
`class_dir`, `class_list`, `class_map_dist` is truthy — in particular when
none is supplied; and the validator returns an error — examining no label
file — exactly when its images or labels directory is missing. -/
theorem c9_config_errors_abort (images_dir : List String) (labels_dir : Option (List String))
    (dirExists : String → Bool) (cd : Option String) (cl : Option (List String))
    (cm : Option (List (String × String))) (ie le : Bool) (mci : Option ℤ)
    (files : List (List String)) :
    ((splitConfigCheck images_dir labels_dir dirExists).isOk = true ↔
      (images_dir.length = (labels_dir.getD images_dir).length ∧
        ∀ d ∈ images_dir, dirExists d = true)) ∧
    (XMLtoTXTConverter_init cd cl cm = .error .missingClassSource ↔
      (pyTruthyStr cd = false ∧ pyTruthy cl = false ∧ pyTruthy cm = false)) ∧
    ((validate_yolo_dataset ie le mci files).isOk = true ↔ (ie = true ∧ le = true)) := by
  refine ⟨?_, ?_, ?_⟩
  · rw [splitConfigCheck]
    by_cases hl : images_dir.length = (labels_dir.getD images_dir).length
    · rw [if_neg (fun h => h hl)]
      cases hf : images_dir.find? (fun d => !dirExists d) with
      | some d =>
        refine iff_of_false (by simp [Except.isOk, Except.toBool]) ?_
        rintro ⟨-, hall⟩
        have hd := hall d (List.mem_of_find?_eq_some hf)
        have := List.find?_some hf
        rw [hd] at this
        simp at this
      | none =>
        refine iff_of_true (by simp [Except.isOk, Except.toBool]) ⟨hl, ?_⟩
        intro d hd
        have := List.find?_eq_none.mp hf d hd
        simpa using this
    · rw [if_pos hl]
      exact iff_of_false (by simp [Except.isOk, Except.toBool]) (fun h => hl h.1)
  · rw [XMLtoTXTConverter_init]
    by_cases hc : (pyTruthyStr cd || pyTruthy cl || pyTruthy cm) = true
    · rw [if_pos hc]
      simp only [Bool.or_eq_true] at hc
      refine iff_of_false (by simp) ?_
      rintro ⟨h1, h2, h3⟩
      rw [h1, h2, h3] at hc
      simp at hc
    · rw [if_neg hc]
      simp only [Bool.or_eq_true, not_or, Bool.not_eq_true] at hc
      exact iff_of_true rfl ⟨hc.1.1, hc.1.2, hc.2⟩
  · cases ie <;> cases le <;>
      simp [validate_yolo_dataset, Except.isOk, Except.toBool]

theorem bumpName_keys (acc : List (String × ℕ)) (n : String) :
    (bumpName acc n).map Prod.fst =
      if n ∈ acc.map Prod.fst then acc.map Prod.fst else acc.map Prod.fst ++ [n] := by
  induction acc with
  | nil => simp [bumpName]
  | cons p rest ih =>
    obtain ⟨k, c⟩ := p
    by_cases hk : k = n
    · subst hk
      simp [bumpName]
    · rw [bumpName, if_neg hk]
      by_cases hmem : n ∈ rest.map Prod.fst
      · simp [hmem, ih, Ne.symm hk]
      · simp [hmem, ih, Ne.symm hk]

theorem foldl_bumpName_keys (names : List String) (acc : List (String × ℕ)) :
    (names.foldl bumpName acc).map Prod.fst =
      names.foldl (fun a n => if n ∈ a then a else a ++ [n]) (acc.map Prod.fst) := by
  induction names generalizing acc with
  | nil => rfl
  | cons n rest ih =>
    rw [List.foldl_cons, List.foldl_cons, ih, bumpName_keys]

theorem name_count_keys (names : List String) :
    (name_count names).map Prod.fst = firstSeenList names :=
  foldl_bumpName_keys names []

theorem firstSeenList_aux_nodup (names : List String) (acc : List String) (hacc : acc.Nodup) :
    (names.foldl (fun a n => if n ∈ a then a else a ++ [n]) acc).Nodup := by
  induction names generalizing acc with
  | nil => exact hacc
  | cons n rest ih =>
    rw [List.foldl_cons]
    by_cases hmem : n ∈ acc
    · rw [if_pos hmem]
      exact ih acc hacc
    · rw [if_neg hmem]
      refine ih _ ?_
      simp [List.nodup_append, hacc, hmem]

theorem name_count_nodup (names : List String) : (name_count names).Nodup := by
  have h : ((name_count names).map Prod.fst).Nodup := by
    rw [name_count_keys]
    exact firstSeenList_aux_nodup names [] List.nodup_nil
  exact h.of_map

theorem pair_sublist_total {α : Type} {l : List α} (hl : l.Nodup) {a b : α}
    (ha : a ∈ l) (hb : b ∈ l) (hne : a ≠ b) :
    List.Sublist [a, b] l ∨ List.Sublist [b, a] l := by
  induction l with
  | nil => cases ha
  | cons x t ih =>
    rw [List.nodup_cons] at hl
    rcases List.mem_cons.mp ha with rfl | ha'
    · have hb' : b ∈ t := by
        rcases List.mem_cons.mp hb with rfl | h
        · exact absurd rfl hne
        · exact h
      exact Or.inl (List.Sublist.cons₂ a (List.singleton_sublist.mpr hb'))
    · rcases List.mem_cons.mp hb with rfl | hb'
      · exact Or.inr (List.Sublist.cons₂ b (List.singleton_sublist.mpr ha'))
      · rcases ih hl.2 ha' hb' with h | h
        · exact Or.inl (h.cons x)
        · exact Or.inr (h.cons x)

theorem pair_sublist_antisymm {α : Type} {l : List α} (hl : l.Nodup) {a b : α}
    (hab : List.Sublist [a, b] l) (hba : List.Sublist [b, a] l) : a = b := by
  by_contra hne
  induction l with
  | nil => cases hab
  | cons x t ih =>
    rw [List.nodup_cons] at hl
    cases hab with
    | cons _ hab' =>
      cases hba with
      | cons _ hba' => exact ih hl.2 hab' hba'
      | cons₂ _ hba' => exact hl.1 (hab'.subset (by simp))
    | cons₂ _ hab' =>
      cases hba with
      | cons _ hba' => exact hl.1 (hba'.subset (by simp))
      | cons₂ _ hba' => exact hne rfl

theorem countLe_trans : ∀ a b c : String × ℕ,
    (fun a b : String × ℕ => decide (b.2 ≤ a.2)) a b →
    (fun a b : String × ℕ => decide (b.2 ≤ a.2)) b c →
    (fun a b : String × ℕ => decide (b.2 ≤ a.2)) a c := by
  intro a b c h1 h2
  simp only [decide_eq_true_eq] at h1 h2 ⊢
  exact le_trans h2 h1

theorem countLe_total : ∀ a b : String × ℕ,
    ((fun a b : String × ℕ => decide (b.2 ≤ a.2)) a b ||
      (fun a b : String × ℕ => decide (b.2 ≤ a.2)) b a) := by
  intro a b
  simp only [Bool.or_eq_true, decide_eq_true_eq]
  exact Nat.le_total b.2 a.2

/-- C6 (confirmed).  `get_class_list` is the key sequence of a stable sort
of `name_count` by descending count: the emitted pair sequence has
non-increasing counts (so distinct counts appear in strictly descending
order), any two equal-count entries appear in `name_count` (= first-seen)
order, the keys of `name_count` are exactly the scanned names in order of
first appearance, and the sort is a permutation of `name_count`. -/
theorem c6_class_list_sorted_stable (names : List String) :
    get_class_list (name_count names) =
      ((name_count names).mergeSort (fun a b => decide (b.2 ≤ a.2))).map Prod.fst ∧
    ((name_count names).mergeSort (fun a b => decide (b.2 ≤ a.2))).Pairwise
      (fun a b => b.2 ≤ a.2) ∧
    (∀ a b : String × ℕ,
      List.Sublist [a, b] ((name_count names).mergeSort (fun a b => decide (b.2 ≤ a.2))) →
      a.2 = b.2 → List.Sublist [a, b] (name_count names)) ∧
    (name_count names).map Prod.fst = firstSeenList names ∧
    ((name_count names).mergeSort (fun a b => decide (b.2 ≤ a.2))).Perm (name_count names) := by
  refine ⟨rfl, ?_, ?_, name_count_keys names, List.mergeSort_perm _ _⟩
  · have h := List.sorted_mergeSort countLe_trans countLe_total (name_count names)
    exact h.imp (fun hab => by simpa using hab)
  · intro a b hsub heq
    have hperm := List.mergeSort_perm (name_count names) (fun a b => decide (b.2 ≤ a.2))
    have hnd : ((name_count names).mergeSort (fun a b => decide (b.2 ≤ a.2))).Nodup :=
      (hperm.nodup_iff).mpr (name_count_nodup names)
    have hne : a ≠ b := by
      intro h
      subst h
      exact List.nodup_iff_sublist.mp hnd a hsub
    have ha : a ∈ name_count names := hperm.subset (hsub.subset (by simp))
    have hb : b ∈ name_count names := hperm.subset (hsub.subset (by simp))
    rcases pair_sublist_total (name_count_nodup names) ha hb hne with h | h
    · exact h
    · have hba := List.pair_sublist_mergeSort countLe_trans countLe_total
        (by simp [heq]) h
      exact absurd (pair_sublist_antisymm hnd hsub hba) hne

theorem length_filter_not_mem {sup sub : List ℕ} (hsup : sup.Nodup) (hsub : sub.Nodup)
    (hss : ∀ x ∈ sub, x ∈ sup) :
    (sup.filter (fun i => !sub.contains i)).length = sup.length - sub.length := by
  have hperm : (sup.filter (fun i => sub.contains i)).Perm sub := by
    apply List.perm_of_nodup_nodup_toFinset_eq (hsup.filter _) hsub
    ext x
    simp only [List.mem_toFinset, List.mem_filter, List.contains, List.elem_eq_mem,
      decide_eq_true_eq]
    exact ⟨fun h => h.2, fun h => ⟨hss x h, h⟩⟩
  have hsplit := List.filter_append_perm (fun i => sub.contains i) sup
  have hlen := hsplit.length_eq
  rw [List.length_append, hperm.length_eq] at hlen
  omega

theorem takeSampler_ok : SamplerOk takeSampler := by
  intro st pop k hk hnd
  refine ⟨?_, ?_, ?_⟩
  · simpa [takeSampler] using hk
  · exact hnd.sublist (List.take_sublist _ _)
  · intro x hx
    exact List.mem_of_mem_take hx

theorem c7_split_counts_and_determinism {σ : Type} (S : Sampler σ) (seed : ℕ)
    (hS : SamplerOk S) :
    (split_dataset S seed 100 (4/5) (3/4)).num_trainval = 80 ∧
    (split_dataset S seed 100 (4/5) (3/4)).num_train = 60 ∧
    (split_dataset S seed 100 (4/5) (3/4)).num_val = 20 ∧
    (split_dataset S seed 100 (4/5) (3/4)).num_test = 20 ∧
    (split_dataset S seed 100 (4/5) (3/4)).trainval.length = 80 ∧
    (split_dataset S seed 100 (4/5) (3/4)).train.length = 60 ∧
    (split_dataset S seed 100 (4/5) (3/4)).val.length = 20 ∧
    (split_dataset S seed 100 (4/5) (3/4)).test.length = 20 ∧
    split_dataset S seed 100 (4/5) (3/4) = split_dataset S seed 100 (4/5) (3/4) := by
  have e1 : ratTrunc (((100 : ℕ) : ℚ) * (4 / 5)) = 80 := by
    rw [ratTrunc, if_pos (by norm_num)]
    norm_num
  have e2 : ratTrunc (((80 : ℤ) : ℚ) * (3 / 4)) = 60 := by
    rw [ratTrunc, if_pos (by norm_num)]
    norm_num
  have hdef : split_dataset S seed 100 (4/5) (3/4) =
      ⟨80, 60, 20, 20,
        (S.sample (S.init seed) (List.range 100) 80).1,
        (S.sample (S.sample (S.init seed) (List.range 100) 80).2
          (S.sample (S.init seed) (List.range 100) 80).1 60).1,
        (S.sample (S.init seed) (List.range 100) 80).1.filter
          (fun i => !(S.sample (S.sample (S.init seed) (List.range 100) 80).2
            (S.sample (S.init seed) (List.range 100) 80).1 60).1.contains i),
        (List.range 100).filter
          (fun i => !(S.sample (S.init seed) (List.range 100) 80).1.contains i)⟩ := by
    rw [split_dataset]
    simp only [e1, e2, show ((80 : ℤ).toNat = 80) from rfl, show ((60 : ℤ).toNat = 60) from rfl]
    norm_num
  obtain ⟨hl1, hnd1, hss1⟩ :=
    hS (S.init seed) (List.range 100) 80 (by simp) (List.nodup_range 100)
  obtain ⟨hl2, hnd2, hss2⟩ :=
    hS (S.sample (S.init seed) (List.range 100) 80).2
      (S.sample (S.init seed) (List.range 100) 80).1 60 (by rw [hl1]; norm_num) hnd1
  rw [hdef]
  refine ⟨rfl, rfl, rfl, rfl, hl1, hl2, ?_, ?_, rfl⟩
  · rw [length_filter_not_mem hnd1 hnd2 hss2, hl1, hl2]
  · rw [length_filter_not_mem (List.nodup_range 100) hnd1 hss1, List.length_range, hl1]

/-- C7 (witness).  The split theorem instantiated with a concrete sampler
satisfying the `random.sample` contract and seed 42. -/
theorem c7_split_counts_witness :
    (split_dataset takeSampler 42 100 (4/5) (3/4)).num_trainval = 80 ∧
    (split_dataset takeSampler 42 100 (4/5) (3/4)).num_train = 60 ∧
    (split_dataset takeSampler 42 100 (4/5) (3/4)).num_val = 20 ∧
    (split_dataset takeSampler 42 100 (4/5) (3/4)).num_test = 20 ∧
    (split_dataset takeSampler 42 100 (4/5) (3/4)).trainval.length = 80 ∧
    (split_dataset takeSampler 42 100 (4/5) (3/4)).train.length = 60 ∧
    (split_dataset takeSampler 42 100 (4/5) (3/4)).val.length = 20 ∧
    (split_dataset takeSampler 42 100 (4/5) (3/4)).test.length = 20 ∧
    split_dataset takeSampler 42 100 (4/5) (3/4) = split_dataset takeSampler 42 100 (4/5) (3/4) :=
  c7_split_counts_and_determinism takeSampler 42 takeSampler_ok

theorem length_filterMap_eq_countP {α β : Type} (f : α → Option β) (p : α → Bool)
    (h : ∀ a, (f a).isSome = p a) (l : List α) :
    (l.filterMap f).length = l.countP p := by
  induction l with
  | nil => rfl
  | cons a rest ih =>
    cases hf : f a with
    | none =>
      have hp : p a = false := by rw [← h a, hf]; rfl
      simp [List.filterMap_cons, hf, List.countP_cons, hp, ih]
    | some b =>
      have hp : p a = true := by rw [← h a, hf]; rfl
      simp [List.filterMap_cons, hf, List.countP_cons, hp, ih]

theorem lineClassId_isSome_eq (l : String) : (lineClassId l).isSome = countsAsObject l := by
  rw [lineClassId, countsAsObject]
  by_cases h5 : 5 ≤ (pySplit l).length
  · simp [h5]
  · simp [h5]

/-- C10 (confirmed).  On a label file none of whose read lines makes
`int(parts[0])` fail, a line is counted as exactly one object precisely
when it has at least 5 whitespace tokens and its first token parses as an
integer (`lineClassId`/`countsAsObject` inspect nothing but the token count
and the first token, so coordinate tokens are never parsed or
range-checked), and the counted class ids are the parsed first tokens in
line order. -/
theorem c10_line_counted_iff (lines : List String)
    (hok : ∀ l ∈ lines, 5 ≤ (pySplit l).length →
      (pyParseIntTok ((pySplit l).headD "")).isSome = true) :
    processLabelFile lines = ⟨lines.filterMap lineClassId, false⟩ ∧
      (processLabelFile lines).ids.length = lines.countP countsAsObject := by
  have h1 : processLabelFile lines = ⟨lines.filterMap lineClassId, false⟩ := by
    induction lines with
    | nil => rfl
    | cons l rest ih =>
      have hih := ih (fun x hx => hok x (List.mem_cons_of_mem l hx))
      by_cases h5 : 5 ≤ (pySplit l).length
      · obtain ⟨c, hc⟩ := Option.isSome_iff_exists.mp
          (hok l (List.mem_cons_self l rest) h5)
        simp only [processLabelFile, if_pos h5, hc, hih, lineClassId, List.filterMap_cons]
      · simp only [processLabelFile, if_neg h5, hih, lineClassId, List.filterMap_cons]
  refine ⟨h1, ?_⟩
  rw [h1]
  exact length_filterMap_eq_countP lineClassId countsAsObject lineClassId_isSome_eq lines

/-- C10 (witness).  The line `"3 a b c d"` — five tokens, integer first
token, garbage coordinates — is counted as one object of class 3. -/
theorem c10_line_counted_iff_witness :
    processLabelFile ["3 a b c d"] = ⟨[(3 : ℤ)], false⟩ ∧
      (processLabelFile ["3 a b c d"]).ids.length = List.countP countsAsObject ["3 a b c d"] := by
  have h := c10_line_counted_iff ["3 a b c d"] (by decide)
  exact ⟨h.1.trans (by decide), h.2⟩

/-- C8 (confirmed).  On any corpus of exactly 3 label files that process
without exception and hold 0, 2 and 2 objects respectively, the analyzer
reports `total_label_files = 3` and the per-image histogram
`objects_per_image = {0 : 1, 2 : 2}` — the empty file is counted in the
zero bucket, and every other bucket is 0. -/
theorem c8_histogram_0_2_2 (f1 f2 f3 : List String)
    (h1a : (processLabelFile f1).aborted = false)
    (h1n : (processLabelFile f1).ids.length = 0)
    (h2a : (processLabelFile f2).aborted = false)
    (h2n : (processLabelFile f2).ids.length = 2)
    (h3a : (processLabelFile f3).aborted = false)
    (h3n : (processLabelFile f3).ids.length = 2) :
    (analyze_labels_distribution [f1, f2, f3]).1.total_label_files = 3 ∧
      (analyze_labels_distribution [f1, f2, f3]).1.objects_per_image 0 = 1 ∧
      (analyze_labels_distribution [f1, f2, f3]).1.objects_per_image 2 = 2 ∧
      ∀ k : ℕ, k ≠ 0 → k ≠ 2 →
        (analyze_labels_distribution [f1, f2, f3]).1.objects_per_image k = 0 := by
  refine ⟨by simp [analyze_labels_distribution], ?_, ?_, ?_⟩
  · simp [analyze_labels_distribution, List.filter, h1a, h2a, h3a, List.countP_cons,
      h1n, h2n, h3n]
  · simp [analyze_labels_distribution, List.filter, h1a, h2a, h3a, List.countP_cons,
      h1n, h2n, h3n]
  · intro k hk0 hk2
    simp only [analyze_labels_distribution, List.isEmpty_cons, Bool.false_eq_true,
      if_false, List.map_cons, List.map_nil]
    rw [List.filter_cons_of_pos (by rw [h1a]; rfl), List.filter_cons_of_pos (by rw [h2a]; rfl),
      List.filter_cons_of_pos (by rw [h3a]; rfl), List.filter_nil]
    simp [List.countP_cons, h1n, h2n, h3n, Nat.beq_eq_true_eq, Ne.symm hk0, Ne.symm hk2]

/-- C8 (witness).  Three concrete files with 0, 2 and 2 objects. -/
theorem c8_histogram_0_2_2_witness :
    (analyze_labels_distribution [[""], ["0 0.1 0.2 0.3 0.4", "1 0.1 0.2 0.3 0.4"],
        ["5 1 1 1 1", "5 1 1 1 1"]]).1.total_label_files = 3 ∧
      (analyze_labels_distribution [[""], ["0 0.1 0.2 0.3 0.4", "1 0.1 0.2 0.3 0.4"],
        ["5 1 1 1 1", "5 1 1 1 1"]]).1.objects_per_image 0 = 1 ∧
      (analyze_labels_distribution [[""], ["0 0.1 0.2 0.3 0.4", "1 0.1 0.2 0.3 0.4"],
        ["5 1 1 1 1", "5 1 1 1 1"]]).1.objects_per_image 2 = 2 ∧
      (analyze_labels_distribution [[""], ["0 0.1 0.2 0.3 0.4", "1 0.1 0.2 0.3 0.4"],
        ["5 1 1 1 1", "5 1 1 1 1"]]).1.objects_per_image 5 = 0 := by
  have h := c8_histogram_0_2_2 [""] ["0 0.1 0.2 0.3 0.4", "1 0.1 0.2 0.3 0.4"]
    ["5 1 1 1 1", "5 1 1 1 1"]
    (by decide) (by decide) (by decide) (by decide) (by decide) (by decide)
  exact ⟨h.1, h.2.1, h.2.2.1, h.2.2.2 5 (by decide) (by decide)⟩

end YoloTools
